import Mathlib

/-!
influx2lp: line-protocol formatter and writer

A shallow embedding of `influxwrite.go` (package `influx2lp`).

* Go strings are modelled by `String`; the model covers the Go strings that are
  valid UTF-8, for which Go's byte-wise comparison agrees with comparison of
  code points.
* A Go `map[string]interface{}` is modelled by an association list with
  pairwise distinct keys.  The order in which a `range` loop visits a map is
  not specified by Go and changes from one loop to the next, so every `range`
  over a map takes the visiting order as an explicit argument, a permutation
  of the entries.
* Library code that is not part of the repository and is used through tables
  or parsers (Unicode printability, shortest float formatting, URL parsing) is
  a field of `GoLib`.
-/

namespace Influx2lp

/-! ## Go values -/

/-- A Go floating-point number: `finite neg mant exp` is `(-1)^neg * mant * 2^exp`. -/
inductive GoFloat where
  | finite (neg : Bool) (mant : Nat) (exp : Int)
  | inf (neg : Bool)
  | nan
  deriving DecidableEq, Repr

/-- The dynamic value held by an `interface{}`: one constructor per dynamic type
the formatter distinguishes, `other` for every remaining type, carrying the text
that `%v` prints for it. -/
inductive Value where
  | int (n : Int)
  | int8 (n : Int)
  | int16 (n : Int)
  | int32 (n : Int)
  | int64 (n : Int)
  | uint (n : Nat)
  | float32 (f : GoFloat)
  | float64 (f : GoFloat)
  | string (s : String)
  | bool (b : Bool)
  | nil
  | other (text : String)
  deriving DecidableEq, Repr

/-- The error value of Go, identified by the text `Error()` returns. -/
structure GoError where
  Error : String
  deriving DecidableEq, Repr

/-- The parts of the Go standard library that are consulted through tables or
parsers: `isPrintWide r` is `strconv.IsPrint` on a rune above `0xFF`,
`formatFloatV bits f` is the shortest `%v` text of a float of size `bits`,
`newRequestErr uri` is the error of `http.NewRequest` on `uri`, if any,
`parsedURL uri` is the text (`String()`) of the URL that `url.Parse` builds
from `uri` and `http.NewRequest` stores in the request. -/
structure GoLib where
  isPrintWide : Nat → Bool
  formatFloatV : Nat → GoFloat → String
  newRequestErr : String → Option GoError
  parsedURL : String → String

/-! ## fmt verbs -/

/-- The verb `%d` on an integer: decimal digits, a leading `-` when negative. -/
def fmtD (n : Int) : String :=
  if n < 0 then "-" ++ Nat.repr n.natAbs else Nat.repr n.natAbs

/-- Left-pads a digit string with zeros to width `w`. -/
def padZeros (w : Nat) (s : String) : String :=
  String.mk (List.replicate (w - s.length) (Char.ofNat 48)) ++ s

/-- The value `mant * 2^exp * 10^6` rounded to the nearest natural number, ties
to even: the digits `strconv` keeps for precision 6. -/
def scaledMicro (mant : Nat) (exp : Int) : Nat :=
  if 0 ≤ exp then mant * 2 ^ exp.toNat * 1000000
  else
    let num := mant * 1000000
    let den := 2 ^ (-exp).toNat
    let q := num / den
    let r := num % den
    if den < 2 * r then q + 1
    else if 2 * r = den ∧ q % 2 = 1 then q + 1
    else q

/-- The verb `%f` on a float: fixed-point notation with six digits after the
point, the sign taken from the sign bit; `NaN`, `+Inf` and `-Inf` for the
special values. -/
def fmtF : GoFloat → String
  | .nan => "NaN"
  | .inf false => "+Inf"
  | .inf true => "-Inf"
  | .finite neg mant exp =>
    let n := scaledMicro mant exp
    (if neg then "-" else "") ++ Nat.repr (n / 1000000) ++ "."
      ++ padZeros 6 (Nat.repr (n % 1000000))

/-- The function `strconv.IsPrint`, with the fast path for Latin-1 of the
library and the table for the wider runes. -/
def isPrint (lib : GoLib) (r : Nat) : Bool :=
  if r ≤ 0xFF then
    if 0x20 ≤ r ∧ r ≤ 0x7E then true
    else if 0xA1 ≤ r ∧ r ≤ 0xFF then r != 0xAD
    else false
  else lib.isPrintWide r

/-- The hexadecimal digit of `n % 16`, lower case. -/
def lowerhex (n : Nat) : Char :=
  (Nat.digitChar (n % 16))

/-- The digits of `r` in hexadecimal, `w` of them, most significant first. -/
def hexDigits (w : Nat) (r : Nat) : List Char :=
  (List.range w).reverse.map fun i => lowerhex (r / 16 ^ i)

/-- The function `appendEscapedRune` of `strconv` for the quote `"`, neither
ASCII-only nor graphic-only: the characters written for the rune `c`. -/
def escapeRune (lib : GoLib) (c : Char) : List Char :=
  let r := c.toNat
  if r = 34 ∨ r = 92 then [Char.ofNat 92, c]
  else if isPrint lib r then [c]
  else if r = 7 then [Char.ofNat 92, 'a']
  else if r = 8 then [Char.ofNat 92, 'b']
  else if r = 12 then [Char.ofNat 92, 'f']
  else if r = 10 then [Char.ofNat 92, 'n']
  else if r = 13 then [Char.ofNat 92, 'r']
  else if r = 9 then [Char.ofNat 92, 't']
  else if r = 11 then [Char.ofNat 92, 'v']
  else if r < 32 ∨ r = 0x7F then Char.ofNat 92 :: 'x' :: hexDigits 2 r
  else if r < 0x10000 then Char.ofNat 92 :: 'u' :: hexDigits 4 r
  else Char.ofNat 92 :: 'U' :: hexDigits 8 r

/-- The verb `%q` on a string, which is `strconv.Quote`: a double quote, every
rune escaped by `escapeRune`, a double quote. -/
def fmtQ (lib : GoLib) (s : String) : String :=
  String.mk (Char.ofNat 34 :: (s.data.flatMap (escapeRune lib) ++ [Char.ofNat 34]))

/-- The verb `%v` on a dynamic value. -/
def fmtV (lib : GoLib) : Value → String
  | .int n => fmtD n
  | .int8 n => fmtD n
  | .int16 n => fmtD n
  | .int32 n => fmtD n
  | .int64 n => fmtD n
  | .uint n => Nat.repr n
  | .float32 f => lib.formatFloatV 32 f
  | .float64 f => lib.formatFloatV 64 f
  | .string s => s
  | .bool b => if b then "true" else "false"
  | .nil => "<nil>"
  | .other text => text

/-! ## The metric and its formatter -/

/-- A Go map from strings to dynamic values: an association list whose keys are
pairwise distinct (see `GoMap.WF`). -/
abbrev GoMap := List (String × Value)

/-- The keys of a Go map are pairwise distinct. -/
def GoMap.WF (m : GoMap) : Prop := (m.map Prod.fst).Nodup

instance (m : GoMap) : Decidable (GoMap.WF m) :=
  inferInstanceAs (Decidable (m.map Prod.fst).Nodup)

/-- The map index expression `m[k]`: the value stored under `k`, the zero value
`nil` of `interface{}` when there is none. -/
def GoMap.index (m : GoMap) (k : String) : Value :=
  match m with
  | [] => Value.nil
  | (k', v) :: rest => if k' = k then v else GoMap.index rest k

structure LPMetric where
  Measurement : String
  Tags : GoMap
  Fields : GoMap
  Timestamp : Int
  deriving DecidableEq, Repr

/-- The order `<=` of Go on strings, lexicographic on the characters. -/
def leChars : List Char → List Char → Bool
  | [], _ => true
  | _ :: _, [] => false
  | a :: as, b :: bs =>
    if a.toNat < b.toNat then true
    else if b.toNat < a.toNat then false
    else leChars as bs

/-- The order `<=` of Go on strings. -/
def strLE (a b : String) : Prop := leChars a.data b.data = true

instance : DecidableRel strLE := fun a b => inferInstanceAs (Decidable (leChars a.data b.data = true))

/-- The function `sort.Strings`: the strings in increasing order. -/
def sortStrings (keys : List String) : List String :=
  keys.insertionSort strLE

/-- The text one field contributes after its key and `=`: the type switch of
`String` picks the verb (`%di`, `%f`, `%q`, `%v`), `Sprintf` applies it. -/
def fieldValueText (lib : GoLib) : Value → String
  | .int n => fmtD n ++ "i"
  | .int16 n => fmtD n ++ "i"
  | .int32 n => fmtD n ++ "i"
  | .int64 n => fmtD n ++ "i"
  | .float32 f => fmtF f
  | .float64 f => fmtF f
  | .string s => fmtQ lib s
  | v => fmtV lib v

/-- One round of the loop over the tags: `Sprintf("%s,%s=%v", metric, k, v)`. -/
def tagStep (lib : GoLib) (metric : String) (kv : String × Value) : String :=
  metric ++ "," ++ kv.1 ++ "=" ++ fmtV lib kv.2

/-- One round of the loop over the sorted keys, on the pair of `metric` and the
counter `i`. -/
def fieldStep (lib : GoLib) (fields : GoMap) (st : String × Nat) (k : String) : String × Nat :=
  let field := k
  let value := fields.index k
  if st.2 = 0 then (st.1 ++ " " ++ field ++ "=" ++ fieldValueText lib value, st.2 + 1)
  else (st.1 ++ "," ++ field ++ "=" ++ fieldValueText lib value, st.2 + 1)

/-- The method `LPMetric.String`; `tagIter` and `fieldIter` are the orders in
which the two `range` loops visit `m.Tags` and `m.Fields`. -/
def LPMetric.String (lib : GoLib) (m : LPMetric) (tagIter fieldIter : GoMap) : String :=
  let metric := m.Measurement
  let metric :=
    if m.Tags.length > 0 then tagIter.foldl (tagStep lib) metric else metric
  let metric :=
    if m.Fields.length > 0 then
      let keys := fieldIter.foldl (fun keys kv => keys ++ [kv.1]) []
      let keys := sortStrings keys
      (keys.foldl (fieldStep lib m.Fields) (metric, 0)).1
    else metric
  metric ++ " " ++ fmtD m.Timestamp

/-- The orders `tagIter` and `fieldIter` are orders in which Go can visit the
maps of `m`. -/
def LPMetric.Visits (m : LPMetric) (tagIter fieldIter : GoMap) : Prop :=
  tagIter.Perm m.Tags ∧ fieldIter.Perm m.Fields

/-- The metric of `TestString`, at the timestamp `1700000000000000000`. -/
def testMetric : LPMetric where
  Measurement := "test-measurement"
  Tags := [("mytag1", .string "myvalue1"), ("mytag2", .string "myvalue2")]
  Fields := [("field1", .float64 (.finite false 5539427541665710 (-52))), ("field2", .int 4),
    ("field3", .string "abcABC")]
  Timestamp := 1700000000000000000

/-! ## The writer -/

structure Config where
  Bucket : String
  Host : String
  Path : String
  Org : String
  Token : String
  UserAgent : String
  /-- A `time.Duration`, in nanoseconds. -/
  Timeout : Int
  deriving DecidableEq, Repr

/-- An `http.Request`, as far as the writer fills it in: `URL` is the text of
the URL that `http.NewRequest` parsed from its argument, the header is a map
from canonical header names to the value set last. -/
structure Request where
  Method : String
  URL : String
  Header : List (String × String)
  Body : String
  deriving DecidableEq, Repr

/-- An `http.Response`: `Body` is the text `io.ReadAll` obtains from the body
(the caller drops the error of the read). -/
structure Response where
  StatusCode : Int
  Body : String
  deriving DecidableEq, Repr

/-- An `http.Client`, as far as one call of the writer uses it: the answer of
`Do` to a request, a transport error or a response. -/
structure Client where
  Do : Request → Except GoError Response

/-- What a write returns, `(int, string, error)`, together with the requests
it handed to `cli.Do`, in order. -/
structure WriteResult where
  status : Int
  body : String
  err : Option GoError
  sent : List Request
  deriving DecidableEq, Repr

/-- The method `Header.Set` on a canonical header name: the value replaces the
values stored under the name. -/
def Request.setHeader (req : Request) (key value : String) : Request :=
  { req with Header := req.Header.filter (fun kv => kv.1 != key) ++ [(key, value)] }

/-- The request URI: `Sprintf("%s%s?&org=%s&bucket=%s", c.Host, c.Path, c.Org, c.Bucket)`. -/
def requestURI (c : Config) : String :=
  c.Host ++ c.Path ++ "?&org=" ++ c.Org ++ "&bucket=" ++ c.Bucket

/-- The request `WriteLPString` hands to the client: the `POST` request that
`http.NewRequest` builds for the URI and the body, whose URL is parsed from the
URI, after the calls of `Header.Set`. -/
def writeRequest (lib : GoLib) (c : Config) (stringMetric : String) : Request :=
  let d := stringMetric
  let uri := requestURI c
  let req : Request :=
    { Method := "POST", URL := lib.parsedURL uri, Header := [], Body := d }
  let req := req.setHeader "Authorization" ("Token " ++ c.Token)
  let req := req.setHeader "Content-Type" "text/plain; charset=utf-8"
  let req := req.setHeader "Accept" "application/json"
  if c.UserAgent ≠ "" then req.setHeader "User-Agent" c.UserAgent else req

/-- The function `WriteLPString`. -/
def WriteLPString (lib : GoLib) (cli : Client) (c : Config) (stringMetric : String) :
    WriteResult :=
  let uri := requestURI c
  match lib.newRequestErr uri with
  | some err => { status := 0, body := "", err := some err, sent := [] }
  | none =>
    let req := writeRequest lib c stringMetric
    match cli.Do req with
    | .error err => { status := 0, body := "failed to write", err := some err, sent := [req] }
    | .ok resp =>
      if resp.StatusCode ≠ 204 then
        { status := resp.StatusCode, body := resp.Body,
          err := some ⟨"expected status 204, got status " ++ fmtD resp.StatusCode
            ++ " (uri=" ++ fmtQ lib uri ++ ")"⟩,
          sent := [req] }
      else { status := resp.StatusCode, body := "", err := none, sent := [req] }

/-- The function `WriteLP`; `tagIter` and `fieldIter` are the visiting orders of
the call of `metric.String()`. -/
def WriteLP (lib : GoLib) (cli : Client) (c : Config) (metric : LPMetric)
    (tagIter fieldIter : GoMap) : WriteResult :=
  if c.Bucket = "" then
    { status := 0, body := "", err := some ⟨"no bucket configured"⟩, sent := [] }
  else if c.Org = "" then
    { status := 0, body := "", err := some ⟨"no org configured"⟩, sent := [] }
  else
    let m := metric.String lib tagIter fieldIter
    WriteLPString lib cli c m

/-! ## The layout of a line, in the words of the specification -/

/-- The tag segment: for each tag, a comma, the key, `=` and the value. -/
def tagSegment (lib : GoLib) : GoMap → String
  | [] => ""
  | kv :: rest => "," ++ kv.1 ++ "=" ++ fmtV lib kv.2 ++ tagSegment lib rest

/-- One field, `key=value`, the value rendered by its kind. -/
def renderField (lib : GoLib) (fields : GoMap) (k : String) : String :=
  k ++ "=" ++ fieldValueText lib (fields.index k)

/-- The items joined by single commas. -/
def joinComma : List String → String
  | [] => ""
  | [a] => a
  | a :: b :: rest => a ++ "," ++ joinComma (b :: rest)

/-- The field clause for the keys `keys`: nothing when there is no key, else a
space and the fields joined by commas. -/
def fieldClause (lib : GoLib) (fields : GoMap) (keys : List String) : String :=
  match keys with
  | [] => ""
  | _ :: _ => " " ++ joinComma (keys.map (renderField lib fields))

/-- The fields after the first: each preceded by a comma. -/
def commaItems : List String → String
  | [] => ""
  | a :: rest => "," ++ a ++ commaItems rest

/-- The keys `String` emits: the keys collected by the loop over `fieldIter`, sorted. -/
def emittedKeys (fieldIter : GoMap) : List String :=
  sortStrings (fieldIter.map Prod.fst)

/-- The configuration of the test `verify good config`, for a server at a fixed
address. -/
def testConfig : Config where
  Bucket := "testbucket"
  Host := "http://127.0.0.1:8086"
  Path := "/api/v2/write"
  Org := "testorg"
  Token := ""
  UserAgent := "influx2lp-unknown-host"
  Timeout := 3000000000

/-- A client whose server answers every request with `resp`. -/
def answering (resp : Response) : Client where
  Do := fun _ => .ok resp

/-- A client whose transport fails on every request with `e`. -/
def failing (e : GoError) : Client where
  Do := fun _ => .error e

/-- The metric `m` with no tag, the single field `k` holding `v`, and timestamp 1. -/
def oneField (k : String) (v : Value) : LPMetric where
  Measurement := "m"
  Tags := []
  Fields := [(k, v)]
  Timestamp := 1

/-- A library whose tables are empty, for evaluating the code on ASCII input;
its `url.Parse` accepts every URI and gives its text back unchanged, as Go does
on the URIs of the examples evaluated with it. -/
def asciiLib : GoLib where
  isPrintWide := fun _ => false
  formatFloatV := fun _ _ => ""
  newRequestErr := fun _ => none
  parsedURL := fun uri => uri

/-- The scheme of a URI in lower case, as `url.Parse` stores it: the letters
before the first colon are lower-cased when the text before it is made of
ASCII letters only; the text is returned unchanged otherwise. -/
def lowerScheme (uri : String) : String :=
  let scheme := uri.data.takeWhile (fun ch => ch != ':')
  let rest := uri.data.dropWhile (fun ch => ch != ':')
  if scheme ≠ [] ∧ rest ≠ [] ∧ scheme.all Char.isAlpha then
    String.mk (scheme.map Char.toLower ++ rest)
  else uri

/-- A library as `asciiLib` whose `url.Parse` lower-cases the scheme, as Go does,
and leaves the rest of the text as it is. -/
def schemeLib : GoLib where
  isPrintWide := fun _ => false
  formatFloatV := fun _ _ => ""
  newRequestErr := fun _ => none
  parsedURL := lowerScheme

/-- The configuration `testConfig` with the scheme of the host in upper case. -/
def upperSchemeConfig : Config where
  Bucket := "testbucket"
  Host := "HTTP://127.0.0.1:8086"
  Path := "/api/v2/write"
  Org := "testorg"
  Token := ""
  UserAgent := "influx2lp-unknown-host"
  Timeout := 3000000000

/-! ## Configuration defaults, headers and kinds -/

/-- The function `NewConfig`; `hostname` is what `os.Hostname()` returns, the
name of the host or an error.  The configuration starts as the zero value. -/
def NewConfig (hostname : Except GoError String) : Config :=
  let c : Config :=
    { Bucket := "", Host := "", Path := "", Org := "", Token := "", UserAgent := "", Timeout := 0 }
  let c := { c with Timeout := 3 * 1000000000 }
  let c := { c with Path := "/api/v2/write" }
  match hostname with
  | .error _ => { c with UserAgent := "influx2lp-unknown-host" }
  | .ok host => { c with UserAgent := "influx2lp-" ++ host }

/-- The value the header of the request holds under `key`, if it holds one. -/
def Request.headerValue (req : Request) (key : String) : Option String :=
  (req.Header.find? (fun kv => kv.1 == key)).map Prod.snd

/-- The dynamic types that reach the `default` case of the type switch: every
type other than `int`, `int16`, `int32`, `int64`, `float32`, `float64` and
`string`. -/
def Value.defaultCase : Value → Bool
  | .int8 _ => true
  | .uint _ => true
  | .bool _ => true
  | .nil => true
  | .other _ => true
  | _ => false

/-- A decimal digit. -/
def isDecimalDigit (c : Char) : Prop := 48 ≤ c.toNat ∧ c.toNat ≤ 57

/-- A printable ASCII character other than the double quote and the backslash. -/
def isPlainASCII (c : Char) : Prop :=
  32 ≤ c.toNat ∧ c.toNat ≤ 126 ∧ c.toNat ≠ 34 ∧ c.toNat ≠ 92

/-- Reading `l` from the left, a backslash taking the character after it with
it, the first double quote that stands alone is the last character of `l`. -/
def closesAtEnd : List Char → Bool
  | [] => false
  | [c] => c.toNat = 34
  | c :: d :: rest =>
    if c.toNat = 92 then closesAtEnd rest
    else if c.toNat = 34 then false
    else closesAtEnd (d :: rest)

/-- The metric with the measurement `a,b=c`, no tag, no field, timestamp 1. -/
def commaMeasurement : LPMetric where
  Measurement := "a,b=c"
  Tags := []
  Fields := []
  Timestamp := 1

/-- The metric with the measurement `a`, the tag `b` holding the string `c`, no
field, timestamp 1. -/
def taggedMeasurement : LPMetric where
  Measurement := "a"
  Tags := [("b", .string "c")]
  Fields := []
  Timestamp := 1

/-! ## The order on strings -/

theorem leChars_total (a b : List Char) : leChars a b = true ∨ leChars b a = true := by
  induction a generalizing b with
  | nil => simp [leChars]
  | cons x xs ih =>
    cases b with
    | nil => simp [leChars]
    | cons y ys =>
      simp only [leChars]
      rcases Nat.lt_trichotomy x.toNat y.toNat with h | h | h
      · simp [h]
      · simpa [h] using ih ys
      · right
        simp [h, Nat.lt_asymm h]

theorem leChars_trans (a b c : List Char) (hab : leChars a b = true) (hbc : leChars b c = true) :
    leChars a c = true := by
  induction a generalizing b c with
  | nil => simp [leChars]
  | cons x xs ih =>
    cases b with
    | nil => simp [leChars] at hab
    | cons y ys =>
      cases c with
      | nil => simp [leChars] at hbc
      | cons z zs =>
        simp only [leChars] at hab hbc ⊢
        split_ifs at hab hbc ⊢ <;> first
          | rfl
          | omega
          | exact ih ys zs hab hbc

theorem toNat_eq_of_not_lt (x y : Char) (h1 : ¬ x.toNat < y.toNat) (h2 : ¬ y.toNat < x.toNat) :
    x = y := by
  apply Char.ext
  apply UInt32.ext
  have : x.toNat = y.toNat := by omega
  exact this

theorem leChars_antisymm (a b : List Char) (hab : leChars a b = true) (hba : leChars b a = true) :
    a = b := by
  induction a generalizing b with
  | nil =>
    cases b with
    | nil => rfl
    | cons y ys => simp [leChars] at hba
  | cons x xs ih =>
    cases b with
    | nil => simp [leChars] at hab
    | cons y ys =>
      simp only [leChars] at hab hba
      rcases Nat.lt_trichotomy x.toNat y.toNat with h | h | h
      · simp [h, Nat.lt_asymm h] at hba
      · simp only [h, Nat.lt_irrefl, if_false] at hab hba
        rw [toNat_eq_of_not_lt x y (by omega) (by omega), ih ys hab hba]
      · simp [h, Nat.lt_asymm h] at hab

theorem lex_cons_cons (x y : Char) (xs ys : List Char) :
    List.Lex (· < ·) (x :: xs) (y :: ys) ↔ x < y ∨ (x = y ∧ List.Lex (· < ·) xs ys) := by
  constructor
  · intro h
    cases h with
    | cons h => exact Or.inr ⟨rfl, h⟩
    | rel h => exact Or.inl h
  · rintro (h | ⟨rfl, h⟩)
    · exact List.Lex.rel h
    · exact List.Lex.cons h

theorem leChars_iff_not_lex (a b : List Char) :
    leChars a b = true ↔ ¬ List.Lex (· < ·) b a := by
  induction a generalizing b with
  | nil =>
    simp only [leChars, true_iff]
    intro h
    cases h
  | cons x xs ih =>
    cases b with
    | nil =>
      simp only [leChars, Bool.false_eq_true, false_iff, not_not]
      exact List.Lex.nil
    | cons y ys =>
      rw [lex_cons_cons, leChars]
      rcases Nat.lt_trichotomy x.toNat y.toNat with h | h | h
      · have hxy : x < y := h
        have hne : y ≠ x := fun e => by subst e; exact lt_irrefl _ hxy
        simp [h, not_lt_of_lt hxy, hne]
      · have hxy : x = y := toNat_eq_of_not_lt x y (by omega) (by omega)
        subst hxy
        simp [ih ys]
      · have hyx : y < x := h
        simp [Nat.lt_asymm h, h, hyx]

/-- The order of the model is the order of `String`: lexicographic on the
code points. -/
theorem strLE_iff_le (a b : String) : strLE a b ↔ a ≤ b := by
  rw [String.le_iff_toList_le, strLE, leChars_iff_not_lex, ← not_lt]
  exact Iff.rfl

instance : IsTotal String strLE := ⟨fun a b => leChars_total a.data b.data⟩

instance : IsTrans String strLE := ⟨fun a b c => leChars_trans a.data b.data c.data⟩

instance : IsAntisymm String strLE :=
  ⟨fun a b hab hba => String.ext (leChars_antisymm a.data b.data hab hba)⟩

theorem sortStrings_sorted (keys : List String) : (sortStrings keys).Sorted strLE :=
  List.sorted_insertionSort strLE keys

theorem sortStrings_ascending (keys : List String) : (sortStrings keys).Sorted (· ≤ ·) :=
  List.Pairwise.imp (fun {a b} h => (strLE_iff_le a b).1 h) (sortStrings_sorted keys)

theorem sortStrings_perm (keys : List String) : (sortStrings keys).Perm keys :=
  List.perm_insertionSort strLE keys

theorem sortStrings_congr {k1 k2 : List String} (h : k1.Perm k2) :
    sortStrings k1 = sortStrings k2 :=
  List.eq_of_perm_of_sorted ((sortStrings_perm k1).trans (h.trans (sortStrings_perm k2).symm))
    (sortStrings_sorted k1) (sortStrings_sorted k2)

/-! ## The loops of `String` in closed form -/

theorem foldl_tagStep (lib : GoLib) (l : GoMap) (metric : String) :
    l.foldl (tagStep lib) metric = metric ++ tagSegment lib l := by
  induction l generalizing metric with
  | nil => simp [tagSegment]
  | cons kv rest ih =>
    simp only [List.foldl_cons, ih, tagStep, tagSegment, String.append_assoc]

theorem foldl_collectKeys (l : GoMap) (acc : List String) :
    l.foldl (fun keys kv => keys ++ [kv.1]) acc = acc ++ l.map Prod.fst := by
  induction l generalizing acc with
  | nil => simp
  | cons kv rest ih => simp [ih]

theorem joinComma_cons (a : String) (rest : List String) :
    joinComma (a :: rest) = a ++ commaItems rest := by
  induction rest generalizing a with
  | nil => simp [joinComma, commaItems]
  | cons b rest ih => simp only [joinComma, commaItems, ih, String.append_assoc]

theorem foldl_fieldStep_succ (lib : GoLib) (fields : GoMap) (ks : List String) (metric : String)
    (i : Nat) :
    (ks.foldl (fieldStep lib fields) (metric, i + 1)).1
      = metric ++ commaItems (ks.map (renderField lib fields)) := by
  induction ks generalizing metric i with
  | nil => simp [commaItems]
  | cons k ks ih =>
    simp only [List.foldl_cons, fieldStep, Nat.add_one_ne_zero, if_false, ih, List.map_cons,
      commaItems, renderField, String.append_assoc]

theorem foldl_fieldStep (lib : GoLib) (fields : GoMap) (ks : List String) (metric : String) :
    (ks.foldl (fieldStep lib fields) (metric, 0)).1 = metric ++ fieldClause lib fields ks := by
  cases ks with
  | nil => simp [fieldClause]
  | cons k ks =>
    simp only [List.foldl_cons, fieldStep, if_true, Nat.zero_add, foldl_fieldStep_succ,
      fieldClause, List.map_cons, joinComma_cons, renderField, String.append_assoc]

theorem String_layout (lib : GoLib) (m : LPMetric) (tagIter fieldIter : GoMap)
    (hv : m.Visits tagIter fieldIter) :
    m.String lib tagIter fieldIter
      = m.Measurement ++ tagSegment lib tagIter
        ++ fieldClause lib m.Fields (emittedKeys fieldIter) ++ " " ++ fmtD m.Timestamp := by
  obtain ⟨ht, hf⟩ := hv
  have htag : (if m.Tags.length > 0 then tagIter.foldl (tagStep lib) m.Measurement
      else m.Measurement) = m.Measurement ++ tagSegment lib tagIter := by
    split_ifs with h
    · exact foldl_tagStep lib tagIter m.Measurement
    · have : tagIter = [] := by
        apply List.eq_nil_of_length_eq_zero
        rw [ht.length_eq]; omega
      simp [this, tagSegment]
  unfold LPMetric.String
  simp only [htag, foldl_collectKeys, List.nil_append, foldl_fieldStep]
  split_ifs with h
  · rfl
  · have : fieldIter = [] := by
      apply List.eq_nil_of_length_eq_zero
      rw [hf.length_eq]; omega
    simp [this, emittedKeys, sortStrings, fieldClause]

theorem index_perm {l1 l2 : GoMap} (h : l1.Perm l2) (hwf : GoMap.WF l1) (k : String) :
    GoMap.index l1 k = GoMap.index l2 k := by
  induction h with
  | nil => rfl
  | cons x _ ih =>
    obtain ⟨k', v⟩ := x
    simp only [GoMap.WF, List.map_cons, List.nodup_cons] at hwf
    simp only [GoMap.index, ih hwf.2]
  | swap x y l =>
    obtain ⟨kx, vx⟩ := x
    obtain ⟨ky, vy⟩ := y
    simp only [GoMap.WF, List.map_cons, List.nodup_cons, List.mem_cons, not_or] at hwf
    simp only [GoMap.index]
    by_cases h1 : ky = k
    · by_cases h2 : kx = k
      · exact absurd (h1.trans h2.symm) hwf.1.1
      · simp [h1, h2]
    · simp [h1]
  | trans h12 _ ih1 ih2 =>
    have hwf2 : GoMap.WF _ := (List.Perm.nodup_iff (h12.map Prod.fst)).1 hwf
    rw [ih1 hwf, ih2 hwf2]

theorem index_of_mem {l : GoMap} (hwf : GoMap.WF l) {k : String} {v : Value}
    (h : (k, v) ∈ l) : GoMap.index l k = v := by
  induction l with
  | nil => simp at h
  | cons x rest ih =>
    obtain ⟨k', v'⟩ := x
    simp only [GoMap.WF, List.map_cons, List.nodup_cons, List.mem_map, not_exists, not_and] at hwf
    simp only [GoMap.index]
    rcases List.mem_cons.1 h with heq | hmem
    · cases heq
      simp
    · have hne : k' ≠ k := fun e => hwf.1 (k, v) hmem e.symm
      simp [hne, ih hwf.2 hmem]

/-! ## The formatter -/

/-- C1: on the metric of `TestString`, when the loop over the tags visits
`mytag2` before `mytag1` (an order Go may choose), `String` emits the tags in
that order, and the line differs from the line the test expects, which has the
tags in the order of the map literal. -/
theorem C1_tags_follow_visiting_order :
    testMetric.Visits testMetric.Tags.reverse testMetric.Fields
    ∧ (∀ lib : GoLib, testMetric.String lib testMetric.Tags.reverse testMetric.Fields
        = "test-measurement,mytag2=myvalue2,mytag1=myvalue1 field1=1.230000,field2=4i,field3=\"abcABC\" 1700000000000000000")
    ∧ (∀ lib : GoLib, testMetric.String lib testMetric.Tags testMetric.Fields
        = "test-measurement,mytag1=myvalue1,mytag2=myvalue2 field1=1.230000,field2=4i,field3=\"abcABC\" 1700000000000000000")
    ∧ (∀ lib : GoLib, testMetric.String lib testMetric.Tags.reverse testMetric.Fields
        ≠ testMetric.String lib testMetric.Tags testMetric.Fields) := by
  refine ⟨⟨List.reverse_perm _, List.Perm.refl _⟩, fun _ => rfl, fun _ => rfl, fun lib => ?_⟩
  have h1 : testMetric.String lib testMetric.Tags.reverse testMetric.Fields
      = "test-measurement,mytag2=myvalue2,mytag1=myvalue1 field1=1.230000,field2=4i,field3=\"abcABC\" 1700000000000000000" := rfl
  have h2 : testMetric.String lib testMetric.Tags testMetric.Fields
      = "test-measurement,mytag1=myvalue1,mytag2=myvalue2 field1=1.230000,field2=4i,field3=\"abcABC\" 1700000000000000000" := rfl
  rw [h1, h2]
  decide

/-- C2: whatever the order in which the fields were inserted and are visited,
the keys `String` emits in the field clause are in ascending order, pairwise
distinct and are the keys of the field map; and a metric that differs from
another only in the insertion order of its fields formats to the same text. -/
theorem C2_field_keys_ascending (lib : GoLib) (m1 m2 : LPMetric) (ti fi1 fi2 : GoMap)
    (hwf : GoMap.WF m1.Fields) (hv1 : m1.Visits ti fi1) (hv2 : m2.Visits ti fi2)
    (hmeas : m2.Measurement = m1.Measurement) (hts : m2.Timestamp = m1.Timestamp)
    (hfields : m2.Fields.Perm m1.Fields) :
    (emittedKeys fi1).Sorted (· ≤ ·)
    ∧ (emittedKeys fi1).Nodup
    ∧ (emittedKeys fi1).Perm (m1.Fields.map Prod.fst)
    ∧ m1.String lib ti fi1
        = m1.Measurement ++ tagSegment lib ti
          ++ fieldClause lib m1.Fields (emittedKeys fi1) ++ " " ++ fmtD m1.Timestamp
    ∧ m2.String lib ti fi2 = m1.String lib ti fi1 := by
  have hperm : (emittedKeys fi1).Perm (m1.Fields.map Prod.fst) :=
    (sortStrings_perm _).trans (hv1.2.map Prod.fst)
  refine ⟨sortStrings_ascending _, (List.Perm.nodup_iff hperm).2 hwf, hperm,
    String_layout lib m1 ti fi1 hv1, ?_⟩
  rw [String_layout lib m1 ti fi1 hv1, String_layout lib m2 ti fi2 hv2, hmeas, hts]
  have hkeys : emittedKeys fi2 = emittedKeys fi1 :=
    sortStrings_congr (((hv2.2.trans hfields).trans hv1.2.symm).map Prod.fst)
  have hwf2 : GoMap.WF m2.Fields := (List.Perm.nodup_iff (hfields.map Prod.fst)).2 hwf
  have hrender : renderField lib m2.Fields = renderField lib m1.Fields := by
    funext k
    simp only [renderField, index_perm hfields hwf2 k]
  rw [hkeys]
  simp only [fieldClause, hrender]

theorem C2_field_keys_ascending_witness :
    emittedKeys testMetric.Fields.reverse = ["field1", "field2", "field3"]
    ∧ ({ testMetric with Fields := testMetric.Fields.reverse } : LPMetric).String asciiLib
        testMetric.Tags testMetric.Fields
      = testMetric.String asciiLib testMetric.Tags testMetric.Fields.reverse :=
  ⟨by decide,
   (C2_field_keys_ascending asciiLib testMetric
      { testMetric with Fields := testMetric.Fields.reverse }
      testMetric.Tags testMetric.Fields.reverse testMetric.Fields
      (by decide) ⟨List.Perm.refl _, List.reverse_perm _⟩
      ⟨List.Perm.refl _, (List.reverse_perm _).symm⟩ rfl rfl (List.reverse_perm _)).2.2.2.2⟩

/-! ## The writer -/

/-- C3: with an empty bucket, whatever the organization, `WriteLP` returns
status 0, an empty body and the error `no bucket configured`, and hands no
request to the client. -/
theorem C3_no_bucket (lib : GoLib) (cli : Client) (c : Config) (metric : LPMetric)
    (tagIter fieldIter : GoMap) (hb : c.Bucket = "") :
    WriteLP lib cli c metric tagIter fieldIter
      = { status := 0, body := "", err := some ⟨"no bucket configured"⟩, sent := [] } := by
  simp [WriteLP, hb]

theorem C3_no_bucket_witness :
    WriteLP asciiLib (answering ⟨204, ""⟩) { testConfig with Bucket := "" } testMetric
        testMetric.Tags testMetric.Fields
      = { status := 0, body := "", err := some ⟨"no bucket configured"⟩, sent := [] }
    ∧ WriteLP asciiLib (answering ⟨204, ""⟩) { testConfig with Bucket := "", Org := "" } testMetric
        testMetric.Tags testMetric.Fields
      = { status := 0, body := "", err := some ⟨"no bucket configured"⟩, sent := [] } :=
  ⟨C3_no_bucket asciiLib (answering ⟨204, ""⟩) { testConfig with Bucket := "" } testMetric
      testMetric.Tags testMetric.Fields rfl,
   C3_no_bucket asciiLib (answering ⟨204, ""⟩) { testConfig with Bucket := "", Org := "" }
      testMetric testMetric.Tags testMetric.Fields rfl⟩

/-- C4: with a bucket and an empty organization, `WriteLP` returns status 0,
an empty body and the error `no org configured`, and hands no request to the
client. -/
theorem C4_no_org (lib : GoLib) (cli : Client) (c : Config) (metric : LPMetric)
    (tagIter fieldIter : GoMap) (hb : c.Bucket ≠ "") (ho : c.Org = "") :
    WriteLP lib cli c metric tagIter fieldIter
      = { status := 0, body := "", err := some ⟨"no org configured"⟩, sent := [] } := by
  simp [WriteLP, hb, ho]

theorem C4_no_org_witness :
    WriteLP asciiLib (answering ⟨204, ""⟩) { testConfig with Org := "" } testMetric
        testMetric.Tags testMetric.Fields
      = { status := 0, body := "", err := some ⟨"no org configured"⟩, sent := [] } :=
  C4_no_org asciiLib (answering ⟨204, ""⟩) { testConfig with Org := "" } testMetric
    testMetric.Tags testMetric.Fields (by decide) rfl

/-- C5: when the request can be built and the client answers it with status
204, `WriteLPString` returns status 204, an empty body and no error, and so does
`WriteLP` for a configuration with a bucket and an organization. -/
theorem C5_status_204 (lib : GoLib) (cli : Client) (c : Config) (s : String) (resp : Response)
    (hbuilt : lib.newRequestErr (requestURI c) = none)
    (hdo : cli.Do (writeRequest lib c s) = .ok resp) (h204 : resp.StatusCode = 204) :
    WriteLPString lib cli c s
      = { status := 204, body := "", err := none, sent := [writeRequest lib c s] }
    ∧ ∀ (m : LPMetric) (ti fi : GoMap), c.Bucket ≠ "" → c.Org ≠ "" → m.String lib ti fi = s →
        WriteLP lib cli c m ti fi
          = { status := 204, body := "", err := none, sent := [writeRequest lib c s] } := by
  have h : WriteLPString lib cli c s
      = { status := 204, body := "", err := none, sent := [writeRequest lib c s] } := by
    simp [WriteLPString, hbuilt, hdo, h204]
  refine ⟨h, fun m ti fi hb ho hs => ?_⟩
  simp only [WriteLP, hb, ho, if_false, hs, h]

theorem C5_status_204_witness :
    WriteLPString asciiLib (answering ⟨204, ""⟩) { testConfig with Bucket := "", Org := "" } "m f=1i 1"
      = { status := 204, body := "", err := none,
          sent := [writeRequest asciiLib { testConfig with Bucket := "", Org := "" } "m f=1i 1"] }
    ∧ WriteLP asciiLib (answering ⟨204, ""⟩) testConfig testMetric testMetric.Tags
        testMetric.Fields
      = { status := 204, body := "", err := none,
          sent := [writeRequest asciiLib testConfig
            (testMetric.String asciiLib testMetric.Tags testMetric.Fields)] } :=
  ⟨(C5_status_204 asciiLib (answering ⟨204, ""⟩) { testConfig with Bucket := "", Org := "" }
      "m f=1i 1" ⟨204, ""⟩ rfl rfl rfl).1,
   (C5_status_204 asciiLib (answering ⟨204, ""⟩) testConfig
      (testMetric.String asciiLib testMetric.Tags testMetric.Fields) ⟨204, ""⟩ rfl rfl rfl).2
      testMetric testMetric.Tags testMetric.Fields (by decide) (by decide) rfl⟩

/-- C6: when the request can be built and the client answers it with a status
other than 204, `WriteLPString` returns that status, the text of the response
body and an error whose message is `expected status 204, got status`, the
status in decimal, and `(uri=...)` with the request URI quoted by `%q`. -/
theorem C6_unexpected_status (lib : GoLib) (cli : Client) (c : Config) (s : String)
    (resp : Response) (hbuilt : lib.newRequestErr (requestURI c) = none)
    (hdo : cli.Do (writeRequest lib c s) = .ok resp) (hne : resp.StatusCode ≠ 204) :
    WriteLPString lib cli c s
      = { status := resp.StatusCode, body := resp.Body,
          err := some ⟨"expected status 204, got status " ++ fmtD resp.StatusCode
            ++ " (uri=" ++ fmtQ lib (c.Host ++ c.Path ++ "?&org=" ++ c.Org ++ "&bucket="
              ++ c.Bucket) ++ ")"⟩,
          sent := [writeRequest lib c s] } := by
  rw [show c.Host ++ c.Path ++ "?&org=" ++ c.Org ++ "&bucket=" ++ c.Bucket = requestURI c from rfl]
  simp [WriteLPString, hbuilt, hdo, hne]

theorem C6_unexpected_status_witness :
    WriteLPString asciiLib (answering ⟨500, "internal error"⟩) testConfig "m f=1i 1"
      = { status := 500, body := "internal error",
          err := some ⟨"expected status 204, got status 500 (uri=\"http://127.0.0.1:8086/api/v2/write?&org=testorg&bucket=testbucket\")"⟩,
          sent := [writeRequest asciiLib testConfig "m f=1i 1"] } :=
  C6_unexpected_status asciiLib (answering ⟨500, "internal error"⟩) testConfig "m f=1i 1"
    ⟨500, "internal error"⟩ rfl rfl (by decide)

/-- C7, as the claim states it: the claim that a transport failure always gives
an empty body fails, the body returned is `failed to write`. -/
theorem C7_body_not_empty :
    ¬ ∀ (lib : GoLib) (cli : Client) (c : Config) (s : String) (e : GoError),
        lib.newRequestErr (requestURI c) = none → cli.Do (writeRequest lib c s) = .error e →
        (WriteLPString lib cli c s).err = some e ∧ (WriteLPString lib cli c s).status = 0
          ∧ (WriteLPString lib cli c s).body = "" := by
  intro h
  have h1 := (h asciiLib (failing ⟨"connection refused"⟩) testConfig "m f=1i 1"
    ⟨"connection refused"⟩ rfl rfl).2.2
  have h2 : (WriteLPString asciiLib (failing ⟨"connection refused"⟩) testConfig "m f=1i 1").body
      = "failed to write" := rfl
  rw [h2] at h1
  exact absurd h1 (by decide)

/-- C7, amended: when the request can be built and the call of the client fails
at transport level, `WriteLPString` returns the transport error together with
status 0 and the body text `failed to write`, after that single attempt. -/
theorem C7_transport_failure (lib : GoLib) (cli : Client) (c : Config) (s : String)
    (e : GoError) (hbuilt : lib.newRequestErr (requestURI c) = none)
    (hdo : cli.Do (writeRequest lib c s) = .error e) :
    WriteLPString lib cli c s
      = { status := 0, body := "failed to write", err := some e, sent := [writeRequest lib c s] } := by
  simp [WriteLPString, hbuilt, hdo]

theorem C7_transport_failure_witness :
    WriteLPString asciiLib (failing ⟨"connection refused"⟩) testConfig "m f=1i 1"
      = { status := 0, body := "failed to write", err := some ⟨"connection refused"⟩,
          sent := [writeRequest asciiLib testConfig "m f=1i 1"] } :=
  C7_transport_failure asciiLib (failing ⟨"connection refused"⟩) testConfig "m f=1i 1"
    ⟨"connection refused"⟩ rfl rfl

/-- C8: for a configuration with a bucket and an organization, `WriteLP` on a
metric returns what `WriteLPString` returns on the text `String` gives for the
metric, and hands the same requests to the client. -/
theorem C8_WriteLP_refines (lib : GoLib) (cli : Client) (c : Config) (m : LPMetric)
    (tagIter fieldIter : GoMap) (hb : c.Bucket ≠ "") (ho : c.Org ≠ "") :
    WriteLP lib cli c m tagIter fieldIter
      = WriteLPString lib cli c (m.String lib tagIter fieldIter) := by
  simp only [WriteLP, hb, ho, if_false]

theorem C8_WriteLP_refines_witness :
    WriteLP asciiLib (answering ⟨500, "internal error"⟩) testConfig testMetric testMetric.Tags
        testMetric.Fields
      = WriteLPString asciiLib (answering ⟨500, "internal error"⟩) testConfig
          (testMetric.String asciiLib testMetric.Tags testMetric.Fields) :=
  C8_WriteLP_refines asciiLib (answering ⟨500, "internal error"⟩) testConfig testMetric
    testMetric.Tags testMetric.Fields (by decide) (by decide)

/-! ## The rendering of field values -/

/-- C9: a field holding the `int8` value 4 is rendered `count=4`, without the
suffix `i` that the same number gets as an `int`, `int16`, `int32` or `int64`. -/
theorem C9_int8_lacks_suffix :
    (∀ lib : GoLib, (oneField "count" (.int8 4)).String lib [] [("count", .int8 4)] = "m count=4 1")
    ∧ (∀ lib : GoLib, (oneField "count" (.int 4)).String lib [] [("count", .int 4)] = "m count=4i 1")
    ∧ (∀ (lib : GoLib) (n : Int), fieldValueText lib (.int8 n) = fmtD n)
    ∧ (∀ (lib : GoLib) (n : Int), fieldValueText lib (.int n) = fmtD n ++ "i"
        ∧ fieldValueText lib (.int16 n) = fmtD n ++ "i"
        ∧ fieldValueText lib (.int32 n) = fmtD n ++ "i"
        ∧ fieldValueText lib (.int64 n) = fmtD n ++ "i") :=
  ⟨fun _ => rfl, fun _ => rfl, fun _ _ => rfl, fun _ _ => ⟨rfl, rfl, rfl, rfl⟩⟩

/-- C10, as the claim states it: the text `a"b` is not rendered verbatim between
double quotes, the embedded double quote is written with a backslash before it. -/
theorem C10_quote_is_escaped :
    (oneField "f" (.string "a\"b")).String asciiLib [] [("f", .string "a\"b")]
      = "m f=\"a\\\"b\" 1"
    ∧ (oneField "f" (.string "a\"b")).String asciiLib [] [("f", .string "a\"b")]
      ≠ "m f=\"a\"b\" 1" := by
  have h : (oneField "f" (.string "a\"b")).String asciiLib [] [("f", .string "a\"b")]
      = "m f=\"a\\\"b\" 1" := rfl
  refine ⟨h, ?_⟩
  rw [h]
  decide

/-- C10, amended: a field whose value is a text `s` is emitted under its key, in
the sorted field clause, as the key, `=`, a double quote, the characters of `s`
each written as `%q` escapes it, and a closing double quote; an embedded double
quote or backslash is written with a backslash before it, and a printable ASCII
character other than these two is written unchanged. -/
theorem C10_text_field_quoted (lib : GoLib) (m : LPMetric) (ti fi : GoMap) (k s : String)
    (hwf : GoMap.WF m.Fields) (hv : m.Visits ti fi) (hk : (k, Value.string s) ∈ m.Fields) :
    k ∈ emittedKeys fi
    ∧ m.String lib ti fi
        = m.Measurement ++ tagSegment lib ti ++ " "
          ++ joinComma ((emittedKeys fi).map (renderField lib m.Fields))
          ++ " " ++ fmtD m.Timestamp
    ∧ renderField lib m.Fields k
        = k ++ "=" ++ String.mk ([Char.ofNat 34] ++ s.data.flatMap (escapeRune lib)
            ++ [Char.ofNat 34])
    ∧ escapeRune lib (Char.ofNat 34) = [Char.ofNat 92, Char.ofNat 34]
    ∧ escapeRune lib (Char.ofNat 92) = [Char.ofNat 92, Char.ofNat 92]
    ∧ ∀ c : Char, 32 ≤ c.toNat → c.toNat ≤ 126 → c.toNat ≠ 34 → c.toNat ≠ 92 →
        escapeRune lib c = [c] := by
  have hmem : k ∈ emittedKeys fi := by
    apply (sortStrings_perm _).mem_iff.2
    apply (hv.2.map Prod.fst).mem_iff.2
    exact List.mem_map_of_mem Prod.fst hk
  refine ⟨hmem, ?_, ?_, rfl, rfl, ?_⟩
  · rw [String_layout lib m ti fi hv]
    cases hks : emittedKeys fi with
    | nil => rw [hks] at hmem; simp at hmem
    | cons a rest => simp only [fieldClause, String.append_assoc]
  · simp [renderField, index_of_mem hwf hk, fieldValueText, fmtQ]
  · intro c h1 h2 h3 h4
    have hp : isPrint lib c.toNat = true := by
      simp only [isPrint]
      split_ifs <;> first | rfl | omega
    simp [escapeRune, h3, h4, hp]

theorem C10_text_field_quoted_witness :
    renderField asciiLib testMetric.Fields "field3" = "field3=\"abcABC\""
    ∧ renderField asciiLib [("f", .string "a\"b\\c")] "f" = "f=\"a\\\"b\\\\c\"" :=
  ⟨(C10_text_field_quoted asciiLib testMetric testMetric.Tags testMetric.Fields "field3"
      "abcABC" (by decide) ⟨List.Perm.refl _, List.Perm.refl _⟩ (by decide)).2.2.1,
   (C10_text_field_quoted asciiLib
      (oneField "f" (.string "a\"b\\c"))
      [] [("f", .string "a\"b\\c")] "f" "a\"b\\c" (by decide)
      ⟨List.Perm.refl _, List.Perm.refl _⟩ (by decide)).2.2.1⟩

/-! ## The empty field clause, the request and the defaults -/

/-- C12: for a metric whose field map is empty, `String` returns the
measurement, the tag segment, one space and the timestamp in decimal, with no
field clause; with no tags it is the measurement, a space and the timestamp.
The function is total: there is a result for every measurement and timestamp,
the empty measurement and the negative timestamps included. -/
theorem C12_no_fields (lib : GoLib) (m : LPMetric) (ti fi : GoMap)
    (hf : m.Fields = []) (ht : ti.Perm m.Tags) :
    m.String lib ti fi = m.Measurement ++ tagSegment lib ti ++ " " ++ fmtD m.Timestamp
    ∧ (m.Tags = [] → m.String lib ti fi = m.Measurement ++ " " ++ fmtD m.Timestamp) := by
  have htag : (if m.Tags.length > 0 then ti.foldl (tagStep lib) m.Measurement
      else m.Measurement) = m.Measurement ++ tagSegment lib ti := by
    split_ifs with h
    · exact foldl_tagStep lib ti m.Measurement
    · have : ti = [] := by
        apply List.eq_nil_of_length_eq_zero
        rw [ht.length_eq]; omega
      simp [this, tagSegment]
  have h : m.String lib ti fi = m.Measurement ++ tagSegment lib ti ++ " " ++ fmtD m.Timestamp := by
    unfold LPMetric.String
    simp only [htag, hf, List.length_nil, gt_iff_lt, Nat.lt_irrefl, if_false]
  refine ⟨h, fun hnil => ?_⟩
  have : ti = [] := by
    apply List.eq_nil_of_length_eq_zero
    rw [ht.length_eq, hnil]; rfl
  rw [h, this]
  simp [tagSegment]

theorem C12_no_fields_witness :
    ({ testMetric with Fields := [] } : LPMetric).String asciiLib testMetric.Tags []
      = "test-measurement,mytag1=myvalue1,mytag2=myvalue2 1700000000000000000"
    ∧ ({ Measurement := "", Tags := [], Fields := [], Timestamp := -5 } : LPMetric).String
        asciiLib [] [] = " -5" :=
  ⟨(C12_no_fields asciiLib { testMetric with Fields := [] } testMetric.Tags [] rfl
      (List.Perm.refl _)).1,
   (C12_no_fields asciiLib { Measurement := "", Tags := [], Fields := [], Timestamp := -5 }
      [] [] rfl (List.Perm.refl _)).2 rfl⟩

theorem WriteLPString_sent (lib : GoLib) (cli : Client) (c : Config) (s : String) :
    (WriteLPString lib cli c s).sent
      = if (lib.newRequestErr (requestURI c)).isSome then [] else [writeRequest lib c s] := by
  cases h : lib.newRequestErr (requestURI c) with
  | some e => simp [WriteLPString, h]
  | none =>
    cases hdo : cli.Do (writeRequest lib c s) with
    | error e => simp [WriteLPString, h, hdo]
    | ok resp =>
      by_cases h204 : resp.StatusCode = 204 <;> simp [WriteLPString, h, hdo, h204]

theorem writeRequest_header (lib : GoLib) (c : Config) (s : String) :
    (writeRequest lib c s).Header
      = if c.UserAgent = "" then
          [("Authorization", "Token " ++ c.Token),
           ("Content-Type", "text/plain; charset=utf-8"), ("Accept", "application/json")]
        else
          [("Authorization", "Token " ++ c.Token),
           ("Content-Type", "text/plain; charset=utf-8"), ("Accept", "application/json"),
           ("User-Agent", c.UserAgent)] := by
  unfold writeRequest
  by_cases h : c.UserAgent = "" <;> simp [h, Request.setHeader]

/-- C13, as the claim states it: for a host written `HTTP://127.0.0.1:8086`,
and a library that lower-cases the scheme as `url.Parse` does, the one request
`WriteLPString` hands to the client has the URL
`http://127.0.0.1:8086/api/v2/write?&org=testorg&bucket=testbucket`, which is
not the text obtained by concatenating the host, the path and the query. -/
theorem C13_url_is_parsed :
    (WriteLPString schemeLib (answering ⟨204, ""⟩) upperSchemeConfig "m f=1i 1").sent
      = [writeRequest schemeLib upperSchemeConfig "m f=1i 1"]
    ∧ (writeRequest schemeLib upperSchemeConfig "m f=1i 1").URL
      = "http://127.0.0.1:8086/api/v2/write?&org=testorg&bucket=testbucket"
    ∧ upperSchemeConfig.Host ++ upperSchemeConfig.Path ++ "?&org=" ++ upperSchemeConfig.Org
        ++ "&bucket=" ++ upperSchemeConfig.Bucket
      = "HTTP://127.0.0.1:8086/api/v2/write?&org=testorg&bucket=testbucket"
    ∧ (writeRequest schemeLib upperSchemeConfig "m f=1i 1").URL
      ≠ upperSchemeConfig.Host ++ upperSchemeConfig.Path ++ "?&org=" ++ upperSchemeConfig.Org
        ++ "&bucket=" ++ upperSchemeConfig.Bucket := by
  have h1 : (writeRequest schemeLib upperSchemeConfig "m f=1i 1").URL
      = "http://127.0.0.1:8086/api/v2/write?&org=testorg&bucket=testbucket" := by rfl
  have h2 : upperSchemeConfig.Host ++ upperSchemeConfig.Path ++ "?&org=" ++ upperSchemeConfig.Org
        ++ "&bucket=" ++ upperSchemeConfig.Bucket
      = "HTTP://127.0.0.1:8086/api/v2/write?&org=testorg&bucket=testbucket" := by rfl
  refine ⟨by rfl, h1, h2, ?_⟩
  rw [h1, h2]
  decide

/-- C13, amended: for every configuration, an empty bucket or organization
included, the URI `WriteLPString` hands to `http.NewRequest` is the
concatenation of the host, the path, `?&org=`, the organization, `&bucket=` and
the bucket, nothing escaped.  When `http.NewRequest` rejects that text the
error is returned with status 0 and no request is issued; otherwise exactly one
request is issued, whose URL is what `url.Parse` builds from that text. -/
theorem C13_uri_handed_to_NewRequest (lib : GoLib) (cli : Client) (c : Config) (s : String) :
    requestURI c = c.Host ++ c.Path ++ "?&org=" ++ c.Org ++ "&bucket=" ++ c.Bucket
    ∧ (∀ e : GoError,
        lib.newRequestErr (c.Host ++ c.Path ++ "?&org=" ++ c.Org ++ "&bucket=" ++ c.Bucket)
          = some e →
        WriteLPString lib cli c s = { status := 0, body := "", err := some e, sent := [] })
    ∧ (lib.newRequestErr (c.Host ++ c.Path ++ "?&org=" ++ c.Org ++ "&bucket=" ++ c.Bucket)
          = none →
        (WriteLPString lib cli c s).sent = [writeRequest lib c s]
        ∧ (writeRequest lib c s).URL
          = lib.parsedURL (c.Host ++ c.Path ++ "?&org=" ++ c.Org ++ "&bucket=" ++ c.Bucket)) := by
  have huri : requestURI c = c.Host ++ c.Path ++ "?&org=" ++ c.Org ++ "&bucket=" ++ c.Bucket :=
    rfl
  rw [← huri]
  refine ⟨rfl, fun e he => ?_, fun hnone => ⟨?_, ?_⟩⟩
  · simp [WriteLPString, he]
  · rw [WriteLPString_sent, hnone]
    rfl
  · unfold writeRequest
    split_ifs <;> rfl

theorem C13_uri_handed_to_NewRequest_witness :
    (WriteLPString asciiLib (answering ⟨204, ""⟩) { testConfig with Bucket := "", Org := "" }
        "m f=1i 1").sent
      = [{ Method := "POST", URL := "http://127.0.0.1:8086/api/v2/write?&org=&bucket=",
           Header := [("Authorization", "Token "), ("Content-Type", "text/plain; charset=utf-8"),
             ("Accept", "application/json"), ("User-Agent", "influx2lp-unknown-host")],
           Body := "m f=1i 1" }]
    ∧ (writeRequest schemeLib upperSchemeConfig "m f=1i 1").URL
      = lowerScheme "HTTP://127.0.0.1:8086/api/v2/write?&org=testorg&bucket=testbucket" :=
  ⟨((C13_uri_handed_to_NewRequest asciiLib (answering ⟨204, ""⟩)
      { testConfig with Bucket := "", Org := "" } "m f=1i 1").2.2 rfl).1.trans (by rfl),
   ((C13_uri_handed_to_NewRequest schemeLib (answering ⟨204, ""⟩) upperSchemeConfig
      "m f=1i 1").2.2 rfl).2⟩

/-- C14: the request `WriteLPString` hands to the client carries
`Authorization` with `Token ` and the token, `Content-Type` with
`text/plain; charset=utf-8`, `Accept` with `application/json`, and `User-Agent`
with the configured user agent exactly when that is not empty. -/
theorem C14_request_headers (lib : GoLib) (cli : Client) (c : Config) (s : String) :
    (WriteLPString lib cli c s).sent
      = (if (lib.newRequestErr (requestURI c)).isSome then [] else [writeRequest lib c s])
    ∧ (writeRequest lib c s).headerValue "Authorization" = some ("Token " ++ c.Token)
    ∧ (writeRequest lib c s).headerValue "Content-Type" = some "text/plain; charset=utf-8"
    ∧ (writeRequest lib c s).headerValue "Accept" = some "application/json"
    ∧ (writeRequest lib c s).headerValue "User-Agent"
        = (if c.UserAgent = "" then none else some c.UserAgent)
    ∧ ((writeRequest lib c s).headerValue "User-Agent").isSome = !(c.UserAgent == "") := by
  refine ⟨WriteLPString_sent lib cli c s, ?_, ?_, ?_, ?_, ?_⟩ <;>
    by_cases h : c.UserAgent = "" <;>
    simp [Request.headerValue, writeRequest_header, h, List.find?]

/-- C15: when the request can be built, `WriteLPString` hands exactly one
request to the client, whatever the client answers; its method is `POST` and
its body is the string, unchanged. -/
theorem C15_single_post (lib : GoLib) (cli : Client) (c : Config) (s : String)
    (hbuilt : lib.newRequestErr (requestURI c) = none) :
    (WriteLPString lib cli c s).sent = [writeRequest lib c s]
    ∧ (WriteLPString lib cli c s).sent.length = 1
    ∧ (writeRequest lib c s).Method = "POST"
    ∧ (writeRequest lib c s).Body = s := by
  have h : (WriteLPString lib cli c s).sent = [writeRequest lib c s] := by
    rw [WriteLPString_sent, hbuilt]; rfl
  refine ⟨h, by rw [h]; rfl, ?_, ?_⟩ <;>
    (unfold writeRequest; split_ifs <;> rfl)

theorem C15_single_post_witness :
    (WriteLPString asciiLib (failing ⟨"connection refused"⟩) testConfig "m f=1i 1").sent
      = [{ Method := "POST",
           URL := "http://127.0.0.1:8086/api/v2/write?&org=testorg&bucket=testbucket",
           Header := [("Authorization", "Token "), ("Content-Type", "text/plain; charset=utf-8"),
             ("Accept", "application/json"), ("User-Agent", "influx2lp-unknown-host")],
           Body := "m f=1i 1" }] :=
  (C15_single_post asciiLib (failing ⟨"connection refused"⟩) testConfig "m f=1i 1" rfl).1

/-- C18: `NewConfig` returns the path `/api/v2/write`, the timeout of 3 seconds
(in nanoseconds), empty host, organization, bucket and token, and the user agent
`influx2lp-` followed by the host name, or `influx2lp-unknown-host` when the
lookup of the host name fails. -/
theorem C18_NewConfig (h : String) (e : GoError) :
    NewConfig (.ok h)
      = { Bucket := "", Host := "", Path := "/api/v2/write", Org := "", Token := "",
          UserAgent := "influx2lp-" ++ h, Timeout := 3000000000 }
    ∧ NewConfig (.error e)
      = { Bucket := "", Host := "", Path := "/api/v2/write", Org := "", Token := "",
          UserAgent := "influx2lp-unknown-host", Timeout := 3000000000 } :=
  ⟨rfl, rfl⟩

/-! ## Decimal digits -/

theorem digitChar_isDigit (k : Nat) (h : k < 10) : isDecimalDigit (Nat.digitChar k) := by
  unfold isDecimalDigit
  interval_cases k <;> decide

theorem digitChar_value (k : Nat) (h : k < 10) : (Nat.digitChar k).toNat - 48 = k := by
  interval_cases k <;> decide

theorem toDigitsCore_digits (fuel n : Nat) (ds : List Char)
    (hds : ∀ c ∈ ds, isDecimalDigit c) :
    ∀ c ∈ Nat.toDigitsCore 10 fuel n ds, isDecimalDigit c := by
  induction fuel generalizing n ds with
  | zero => simpa [Nat.toDigitsCore] using hds
  | succ fuel ih =>
    have hd : isDecimalDigit (Nat.digitChar (n % 10)) :=
      digitChar_isDigit _ (Nat.mod_lt _ (by decide))
    have hcons : ∀ c ∈ Nat.digitChar (n % 10) :: ds, isDecimalDigit c := by
      intro c hc
      rcases List.mem_cons.1 hc with h | h
      · rw [h]; exact hd
      · exact hds c h
    simp only [Nat.toDigitsCore]
    split_ifs with h0
    · exact hcons
    · exact ih _ _ hcons

theorem toDigitsCore_ne_nil (fuel n : Nat) (ds : List Char) (hds : ds ≠ []) :
    Nat.toDigitsCore 10 fuel n ds ≠ [] := by
  induction fuel generalizing n ds with
  | zero => simpa [Nat.toDigitsCore] using hds
  | succ fuel ih =>
    simp only [Nat.toDigitsCore]
    split_ifs with h0
    · simp
    · exact ih _ _ (by simp)

theorem toDigitsCore_value (fuel n : Nat) (ds : List Char) (h : n < fuel) :
    (Nat.toDigitsCore 10 fuel n ds).foldl (fun acc c => acc * 10 + (c.toNat - 48)) 0
      = ds.foldl (fun acc c => acc * 10 + (c.toNat - 48)) n := by
  induction fuel generalizing n ds with
  | zero => omega
  | succ fuel ih =>
    simp only [Nat.toDigitsCore]
    split_ifs with h0
    · have hn : n < 10 := by omega
      simp only [List.foldl_cons, Nat.zero_mul, Nat.zero_add]
      rw [Nat.mod_eq_of_lt hn, digitChar_value n hn]
    · have hlt : n / 10 < fuel := by omega
      rw [ih (n / 10) _ hlt]
      simp only [List.foldl_cons]
      rw [digitChar_value _ (Nat.mod_lt _ (by decide))]
      congr 1
      omega

theorem repr_digits (n : Nat) : ∀ c ∈ (Nat.repr n).data, isDecimalDigit c := by
  show ∀ c ∈ Nat.toDigitsCore 10 (n + 1) n [], isDecimalDigit c
  exact toDigitsCore_digits _ _ _ (by simp)

theorem repr_ne_nil (n : Nat) : (Nat.repr n).data ≠ [] := by
  show Nat.toDigitsCore 10 (n + 1) n [] ≠ []
  simp only [Nat.toDigitsCore]
  split_ifs with h0
  · simp
  · exact toDigitsCore_ne_nil _ _ _ (by simp)

theorem repr_injective (a b : Nat) (h : Nat.repr a = Nat.repr b) : a = b := by
  have hd : Nat.toDigitsCore 10 (a + 1) a [] = Nat.toDigitsCore 10 (b + 1) b [] :=
    congrArg String.data h
  have ha := toDigitsCore_value (a + 1) a [] (by omega)
  have hb := toDigitsCore_value (b + 1) b [] (by omega)
  rw [hd, hb] at ha
  simpa using ha.symm

theorem fmtD_data (n : Int) :
    (fmtD n).data = if n < 0 then '-' :: (Nat.repr n.natAbs).data else (Nat.repr n.natAbs).data := by
  unfold fmtD
  split_ifs <;> simp [String.data_append]

theorem fmtD_no_space (n : Int) : ' ' ∉ (fmtD n).data := by
  intro hmem
  have hdig : ¬ isDecimalDigit ' ' := by unfold isDecimalDigit; decide
  rw [fmtD_data] at hmem
  split_ifs at hmem
  · rcases List.mem_cons.1 hmem with h | h
    · exact absurd h (by decide)
    · exact hdig (repr_digits _ _ h)
  · exact hdig (repr_digits _ _ hmem)

theorem fmtD_injective (a b : Int) (h : fmtD a = fmtD b) : a = b := by
  have hd : (fmtD a).data = (fmtD b).data := congrArg String.data h
  have hminus : ¬ isDecimalDigit '-' := by unfold isDecimalDigit; decide
  rw [fmtD_data, fmtD_data] at hd
  split_ifs at hd with ha hb hb
  · have := repr_injective _ _ (String.ext (List.cons.inj hd).2)
    omega
  · exfalso
    apply hminus
    apply repr_digits b.natAbs
    rw [← hd]
    exact List.mem_cons_self _ _
  · exfalso
    apply hminus
    apply repr_digits a.natAbs
    rw [hd]
    exact List.mem_cons_self _ _
  · have := repr_injective _ _ (String.ext hd)
    omega

theorem split_at_last {α : Type} (sp : α) (l1 l2 r1 r2 : List α)
    (h : l1 ++ sp :: r1 = l2 ++ sp :: r2) (h1 : sp ∉ r1) (h2 : sp ∉ r2) :
    l1 = l2 ∧ r1 = r2 := by
  induction l1 generalizing l2 with
  | nil =>
    cases l2 with
    | nil => exact ⟨rfl, (List.cons.inj h).2⟩
    | cons x l2 =>
      exfalso
      apply h1
      rw [(List.cons.inj h).2]
      simp
  | cons x l1 ih =>
    cases l2 with
    | nil =>
      exfalso
      apply h2
      rw [← (List.cons.inj h).2]
      simp
    | cons y l2 =>
      obtain ⟨hxy, hrest⟩ := List.cons.inj h
      obtain ⟨hl, hr⟩ := ih l2 hrest
      exact ⟨by rw [hxy, hl], hr⟩

theorem padZeros_six (n : Nat) (h : n < 1000000) :
    (padZeros 6 (Nat.repr n)).data.length = 6
    ∧ ∀ c ∈ (padZeros 6 (Nat.repr n)).data, isDecimalDigit c := by
  have hlen : (Nat.repr n).length ≤ 6 := Nat.repr_length n 6 (by decide) (by omega)
  have hlen2 : (Nat.repr n).data.length ≤ 6 := hlen
  have hdata : (padZeros 6 (Nat.repr n)).data
      = List.replicate (6 - (Nat.repr n).length) (Char.ofNat 48) ++ (Nat.repr n).data := by
    simp [padZeros, String.data_append]
  have hlen3 : (Nat.repr n).length = (Nat.repr n).data.length := rfl
  refine ⟨by rw [hdata, List.length_append, List.length_replicate, hlen3]; omega, ?_⟩
  intro c hc
  rw [hdata] at hc
  rcases List.mem_append.1 hc with h0 | h0
  · rw [(List.mem_replicate.1 h0).2]
    unfold isDecimalDigit
    decide
  · exact repr_digits n c h0

/-! ## Fields in the line -/

theorem field_emitted (lib : GoLib) (m : LPMetric) (ti fi : GoMap) (k : String) (v : Value)
    (hv : m.Visits ti fi) (hk : (k, v) ∈ m.Fields) :
    k ∈ emittedKeys fi
    ∧ m.String lib ti fi
        = m.Measurement ++ tagSegment lib ti ++ " "
          ++ joinComma ((emittedKeys fi).map (renderField lib m.Fields))
          ++ " " ++ fmtD m.Timestamp := by
  have hmem : k ∈ emittedKeys fi := by
    apply (sortStrings_perm _).mem_iff.2
    apply (hv.2.map Prod.fst).mem_iff.2
    exact List.mem_map_of_mem Prod.fst hk
  refine ⟨hmem, ?_⟩
  rw [String_layout lib m ti fi hv]
  cases hks : emittedKeys fi with
  | nil => rw [hks] at hmem; simp at hmem
  | cons a rest => simp only [fieldClause, String.append_assoc]

theorem fmtF_finite_chars (neg : Bool) (mant : Nat) (exp : Int) :
    ∀ c ∈ (fmtF (.finite neg mant exp)).data, c = '-' ∨ c = '.' ∨ isDecimalDigit c := by
  intro c hc
  have hlt : scaledMicro mant exp % 1000000 < 1000000 := Nat.mod_lt _ (by decide)
  simp only [fmtF, String.data_append, List.mem_append] at hc
  rcases hc with ((hc | hc) | hc) | hc
  · cases neg
    · simp at hc
    · left
      simpa using hc
  · exact Or.inr (Or.inr (repr_digits _ c hc))
  · right; left
    simpa using hc
  · exact Or.inr (Or.inr ((padZeros_six _ hlt).2 c hc))

/-- C11, as the claim states it: a field holding the float `NaN` is rendered
`f=NaN` and one holding the positive infinity `f=+Inf`, with no decimal point
and no digit after it. -/
theorem C11_nan_has_no_decimals :
    (oneField "f" (.float64 .nan)).String asciiLib [] [("f", .float64 .nan)] = "m f=NaN 1"
    ∧ (oneField "f" (.float64 (.inf false))).String asciiLib [] [("f", .float64 (.inf false))]
        = "m f=+Inf 1"
    ∧ '.' ∉ (fieldValueText asciiLib (.float64 .nan)).data
    ∧ '.' ∉ (fieldValueText asciiLib (.float64 (.inf false))).data := by
  refine ⟨rfl, rfl, ?_, ?_⟩ <;> decide

/-- C11, amended: a field whose value is a float is emitted under its key with
the value as `%f` writes it.  For a finite float that is the sign `-` when the
sign bit is set, the decimal digits of the integer part (at least one), a
point and exactly six decimal digits; for every float, `NaN` and the infinities
included, the text contains no exponent letter. -/
theorem C11_finite_float_fixed (lib : GoLib) (m : LPMetric) (ti fi : GoMap) (k : String)
    (f : GoFloat) (hwf : GoMap.WF m.Fields) (hv : m.Visits ti fi)
    (hk : (k, Value.float64 f) ∈ m.Fields ∨ (k, Value.float32 f) ∈ m.Fields) :
    k ∈ emittedKeys fi
    ∧ m.String lib ti fi
        = m.Measurement ++ tagSegment lib ti ++ " "
          ++ joinComma ((emittedKeys fi).map (renderField lib m.Fields))
          ++ " " ++ fmtD m.Timestamp
    ∧ renderField lib m.Fields k = k ++ "=" ++ fmtF f
    ∧ (∀ (neg : Bool) (mant : Nat) (exp : Int), f = .finite neg mant exp →
        ∃ ip fp : List Char,
          fmtF f = (if neg then "-" else "") ++ String.mk ip ++ "." ++ String.mk fp
          ∧ ip ≠ [] ∧ (∀ c ∈ ip, isDecimalDigit c)
          ∧ fp.length = 6 ∧ (∀ c ∈ fp, isDecimalDigit c))
    ∧ 'e' ∉ (fmtF f).data ∧ 'E' ∉ (fmtF f).data := by
  have hrender : renderField lib m.Fields k = k ++ "=" ++ fmtF f := by
    rcases hk with hk | hk <;> simp [renderField, index_of_mem hwf hk, fieldValueText]
  have hem : k ∈ emittedKeys fi ∧ m.String lib ti fi
        = m.Measurement ++ tagSegment lib ti ++ " "
          ++ joinComma ((emittedKeys fi).map (renderField lib m.Fields))
          ++ " " ++ fmtD m.Timestamp := by
    rcases hk with hk | hk <;> exact field_emitted lib m ti fi k _ hv hk
  have hnoexp : ∀ x : Char, x.toNat = 101 ∨ x.toNat = 69 → x ∉ (fmtF f).data := by
    intro x hx hmem
    cases f with
    | nan =>
      have : x ∈ ['N', 'a', 'N'] := hmem
      simp only [List.mem_cons, List.mem_singleton, List.mem_nil_iff, or_false] at this
      rcases this with h | h | h <;> (rw [h] at hx; revert hx; decide)
    | inf neg =>
      cases neg
      · have : x ∈ ['+', 'I', 'n', 'f'] := hmem
        simp only [List.mem_cons, List.mem_singleton, List.mem_nil_iff, or_false] at this
        rcases this with h | h | h | h <;> (rw [h] at hx; revert hx; decide)
      · have : x ∈ ['-', 'I', 'n', 'f'] := hmem
        simp only [List.mem_cons, List.mem_singleton, List.mem_nil_iff, or_false] at this
        rcases this with h | h | h | h <;> (rw [h] at hx; revert hx; decide)
    | finite neg mant exp =>
      rcases fmtF_finite_chars neg mant exp x hmem with h | h | h
      · rw [h] at hx; revert hx; decide
      · rw [h] at hx; revert hx; decide
      · unfold isDecimalDigit at h
        omega
  refine ⟨hem.1, hem.2, hrender, ?_, hnoexp 'e' (by decide), hnoexp 'E' (by decide)⟩
  intro neg mant exp hf
  subst hf
  have hlt : scaledMicro mant exp % 1000000 < 1000000 := Nat.mod_lt _ (by decide)
  exact ⟨(Nat.repr (scaledMicro mant exp / 1000000)).data,
    (padZeros 6 (Nat.repr (scaledMicro mant exp % 1000000))).data, rfl,
    repr_ne_nil _, repr_digits _, (padZeros_six _ hlt).1, (padZeros_six _ hlt).2⟩

theorem C11_finite_float_fixed_witness :
    renderField asciiLib testMetric.Fields "field1" = "field1=1.230000" :=
  ((C11_finite_float_fixed asciiLib testMetric testMetric.Tags testMetric.Fields "field1"
    (.finite false 5539427541665710 (-52)) (by decide) ⟨List.Perm.refl _, List.Perm.refl _⟩
    (Or.inl (by decide))).2.2.1).trans (by rfl)

/-- C16: on the metric of `TestString`, which has two tags, two calls of
`String` that visit the tags in different orders, both orders Go may choose,
return different texts. -/
theorem C16_two_calls_differ :
    testMetric.Visits testMetric.Tags testMetric.Fields
    ∧ testMetric.Visits [("mytag2", .string "myvalue2"), ("mytag1", .string "myvalue1")]
        testMetric.Fields
    ∧ ∀ lib : GoLib,
        testMetric.String lib testMetric.Tags testMetric.Fields
          ≠ testMetric.String lib
              [("mytag2", .string "myvalue2"), ("mytag1", .string "myvalue1")]
              testMetric.Fields := by
  refine ⟨⟨List.Perm.refl _, List.Perm.refl _⟩, ⟨List.Perm.swap _ _ _, List.Perm.refl _⟩,
    fun lib => ?_⟩
  have h1 : testMetric.String lib testMetric.Tags testMetric.Fields
      = "test-measurement,mytag1=myvalue1,mytag2=myvalue2 field1=1.230000,field2=4i,field3=\"abcABC\" 1700000000000000000" := rfl
  have h2 : testMetric.String lib
      [("mytag2", .string "myvalue2"), ("mytag1", .string "myvalue1")] testMetric.Fields
      = "test-measurement,mytag2=myvalue2,mytag1=myvalue1 field1=1.230000,field2=4i,field3=\"abcABC\" 1700000000000000000" := rfl
  rw [h1, h2]
  decide

/-- C19: a field whose value is of a type that reaches the `default` case of
the type switch (a boolean, an `int8`, an unsigned integer, `nil`, any other
type) is emitted under its key as the key, `=` and the text `%v` gives for the
value, with no quotes and no suffix added. -/
theorem C19_default_case (lib : GoLib) (m : LPMetric) (ti fi : GoMap) (k : String) (v : Value)
    (hwf : GoMap.WF m.Fields) (hv : m.Visits ti fi) (hk : (k, v) ∈ m.Fields)
    (hd : v.defaultCase = true) :
    k ∈ emittedKeys fi
    ∧ m.String lib ti fi
        = m.Measurement ++ tagSegment lib ti ++ " "
          ++ joinComma ((emittedKeys fi).map (renderField lib m.Fields))
          ++ " " ++ fmtD m.Timestamp
    ∧ renderField lib m.Fields k = k ++ "=" ++ fmtV lib v
    ∧ fmtV lib (.bool true) = "true" ∧ fmtV lib (.bool false) = "false"
    ∧ (∀ n : Nat, fmtV lib (.uint n) = Nat.repr n)
    ∧ (∀ n : Int, fmtV lib (.int8 n) = fmtD n)
    ∧ (∀ text : String, fmtV lib (.other text) = text) := by
  have hem := field_emitted lib m ti fi k v hv hk
  refine ⟨hem.1, hem.2, ?_, rfl, rfl, fun _ => rfl, fun _ => rfl, fun _ => rfl⟩
  rw [renderField, index_of_mem hwf hk]
  cases v <;> first | rfl | simp [Value.defaultCase] at hd

theorem C19_default_case_witness :
    (oneField "key" (.bool true)).String asciiLib [] [("key", .bool true)] = "m key=true 1"
    ∧ renderField asciiLib [("key", .uint 4)] "key" = "key=4" :=
  ⟨((C19_default_case asciiLib (oneField "key" (.bool true)) [] [("key", .bool true)] "key"
      (.bool true) (by decide) ⟨List.Perm.refl _, List.Perm.refl _⟩ (by decide) rfl).2.1).trans
      (by rfl),
   ((C19_default_case asciiLib (oneField "key" (.uint 4)) [] [("key", .uint 4)] "key"
      (.uint 4) (by decide) ⟨List.Perm.refl _, List.Perm.refl _⟩ (by decide) rfl).2.2.1).trans
      (by rfl)⟩

/-! ## Quoting -/

theorem isPrint_plain (lib : GoLib) (c : Char) (h : isPlainASCII c) :
    isPrint lib c.toNat = true := by
  obtain ⟨h1, h2, _, _⟩ := h
  simp only [isPrint]
  split_ifs <;> first | rfl | omega

theorem escapeRune_plain (lib : GoLib) (c : Char) (h : isPlainASCII c) :
    escapeRune lib c = [c] := by
  have hp := isPrint_plain lib c h
  obtain ⟨_, _, h3, h4⟩ := h
  simp [escapeRune, h3, h4, hp]

theorem flatMap_escapeRune_plain (lib : GoLib) (l : List Char) (h : ∀ c ∈ l, isPlainASCII c) :
    l.flatMap (escapeRune lib) = l := by
  induction l with
  | nil => rfl
  | cons c rest ih =>
    rw [List.flatMap_cons, escapeRune_plain lib c (h c (List.mem_cons_self _ _)),
      ih (fun x hx => h x (List.mem_cons_of_mem _ hx))]
    rfl

theorem closesAtEnd_cons_plain (c : Char) (rest : List Char) (h1 : c.toNat ≠ 92)
    (h2 : c.toNat ≠ 34) (hne : rest ≠ []) : closesAtEnd (c :: rest) = closesAtEnd rest := by
  cases rest with
  | nil => exact absurd rfl hne
  | cons d rest => simp [closesAtEnd, h1, h2]

theorem closesAtEnd_append_plain (l rest : List Char)
    (h : ∀ c ∈ l, c.toNat ≠ 92 ∧ c.toNat ≠ 34) (hne : rest ≠ []) :
    closesAtEnd (l ++ rest) = closesAtEnd rest := by
  induction l with
  | nil => rfl
  | cons c l ih =>
    have hc := h c (List.mem_cons_self _ _)
    rw [List.cons_append, closesAtEnd_cons_plain c (l ++ rest) hc.1 hc.2 (by simp [hne]),
      ih (fun x hx => h x (List.mem_cons_of_mem _ hx))]

theorem closesAtEnd_escaped (d : Char) (rest : List Char) :
    closesAtEnd (Char.ofNat 92 :: d :: rest) = closesAtEnd rest := by
  have h : (Char.ofNat 92).toNat = 92 := by decide
  simp [closesAtEnd, h]

theorem lowerhex_plain (n : Nat) : (lowerhex n).toNat ≠ 92 ∧ (lowerhex n).toNat ≠ 34 := by
  unfold lowerhex
  have h : n % 16 < 16 := Nat.mod_lt _ (by decide)
  generalize n % 16 = k at h
  interval_cases k <;> decide

theorem hexDigits_plain (w r : Nat) : ∀ c ∈ hexDigits w r, c.toNat ≠ 92 ∧ c.toNat ≠ 34 := by
  intro c hc
  simp only [hexDigits, List.mem_map] at hc
  obtain ⟨i, _, rfl⟩ := hc
  exact lowerhex_plain _

theorem closesAtEnd_backslash (d : Char) (l rest : List Char)
    (h : ∀ c ∈ l, c.toNat ≠ 92 ∧ c.toNat ≠ 34) (hne : rest ≠ []) :
    closesAtEnd ((Char.ofNat 92 :: d :: l) ++ rest) = closesAtEnd rest := by
  rw [List.cons_append, List.cons_append, closesAtEnd_escaped]
  exact closesAtEnd_append_plain l rest h hne

theorem escapeRune_shape (lib : GoLib) (c : Char) (h1 : ¬ (c.toNat = 34 ∨ c.toNat = 92))
    (h2 : ¬ isPrint lib c.toNat = true) :
    ∃ (d : Char) (l : List Char), escapeRune lib c = Char.ofNat 92 :: d :: l
      ∧ ∀ x ∈ l, x.toNat ≠ 92 ∧ x.toNat ≠ 34 := by
  have hnil : ∀ x ∈ ([] : List Char), x.toNat ≠ 92 ∧ x.toNat ≠ 34 := by simp
  simp only [escapeRune, if_neg h1, if_neg h2]
  split_ifs
  · exact ⟨'a', [], rfl, hnil⟩
  · exact ⟨'b', [], rfl, hnil⟩
  · exact ⟨'f', [], rfl, hnil⟩
  · exact ⟨'n', [], rfl, hnil⟩
  · exact ⟨'r', [], rfl, hnil⟩
  · exact ⟨'t', [], rfl, hnil⟩
  · exact ⟨'v', [], rfl, hnil⟩
  · exact ⟨'x', hexDigits 2 c.toNat, rfl, hexDigits_plain _ _⟩
  · exact ⟨'u', hexDigits 4 c.toNat, rfl, hexDigits_plain _ _⟩
  · exact ⟨'U', hexDigits 8 c.toNat, rfl, hexDigits_plain _ _⟩

theorem closesAtEnd_escapeRune (lib : GoLib) (c : Char) (rest : List Char) (hne : rest ≠ []) :
    closesAtEnd (escapeRune lib c ++ rest) = closesAtEnd rest := by
  have hnil : ∀ x ∈ ([] : List Char), x.toNat ≠ 92 ∧ x.toNat ≠ 34 := by simp
  by_cases h1 : c.toNat = 34 ∨ c.toNat = 92
  · have he : escapeRune lib c = Char.ofNat 92 :: c :: [] := by
      simp only [escapeRune, if_pos h1]
    rw [he]
    exact closesAtEnd_backslash c [] rest hnil hne
  · by_cases h2 : isPrint lib c.toNat = true
    · have he : escapeRune lib c = [c] := by
        simp only [escapeRune, if_neg h1, if_pos h2]
      rw [he]
      exact closesAtEnd_cons_plain c rest (fun e => h1 (Or.inr e)) (fun e => h1 (Or.inl e)) hne
    · obtain ⟨d, l, hd, hl⟩ := escapeRune_shape lib c h1 h2
      rw [hd]
      exact closesAtEnd_backslash d l rest hl hne

theorem closesAtEnd_quoted (lib : GoLib) (l : List Char) :
    closesAtEnd (l.flatMap (escapeRune lib) ++ [Char.ofNat 34]) = true := by
  induction l with
  | nil =>
    show closesAtEnd [Char.ofNat 34] = true
    decide
  | cons c rest ih =>
    rw [List.flatMap_cons, List.append_assoc, closesAtEnd_escapeRune lib c _ (by simp), ih]

/-- C20: a text field is emitted under its key as the key, `=` and the text
quoted by `%q`.  When the text is made of printable ASCII characters other than
the double quote and the backslash, that is the text unchanged between two
double quotes; for every text it starts with a double quote, and the first
double quote after it that is not taken by a backslash is its last character. -/
theorem C20_text_quoting (lib : GoLib) (m : LPMetric) (ti fi : GoMap) (k s : String)
    (hwf : GoMap.WF m.Fields) (hv : m.Visits ti fi) (hk : (k, Value.string s) ∈ m.Fields) :
    k ∈ emittedKeys fi
    ∧ m.String lib ti fi
        = m.Measurement ++ tagSegment lib ti ++ " "
          ++ joinComma ((emittedKeys fi).map (renderField lib m.Fields))
          ++ " " ++ fmtD m.Timestamp
    ∧ ((∀ c ∈ s.data, isPlainASCII c) →
        renderField lib m.Fields k = k ++ "=" ++ "\"" ++ s ++ "\"")
    ∧ ∃ body : List Char,
        renderField lib m.Fields k = k ++ "=" ++ String.mk (Char.ofNat 34 :: body)
        ∧ closesAtEnd body = true := by
  have hem := field_emitted lib m ti fi k _ hv hk
  have hrender : renderField lib m.Fields k = k ++ "=" ++ fmtQ lib s := by
    simp [renderField, index_of_mem hwf hk, fieldValueText]
  refine ⟨hem.1, hem.2, fun hplain => ?_, s.data.flatMap (escapeRune lib) ++ [Char.ofNat 34], ?_,
    closesAtEnd_quoted lib s.data⟩
  · rw [hrender, fmtQ, flatMap_escapeRune_plain lib s.data hplain]
    apply String.ext
    simp [String.data_append]
  · rw [hrender, fmtQ]

theorem C20_text_quoting_witness :
    (oneField "field3" (.string "abcABC")).String asciiLib [] [("field3", .string "abcABC")]
      = "m field3=\"abcABC\" 1" :=
  ((C20_text_quoting asciiLib (oneField "field3" (.string "abcABC")) []
      [("field3", .string "abcABC")] "field3" "abcABC" (by decide)
      ⟨List.Perm.refl _, List.Perm.refl _⟩ (by decide)).2.1).trans (by rfl)

/-! ## What the line determines -/

/-- C17, as the claim states it: the metric with measurement `a,b=c` and no tag
and the metric with measurement `a` and the tag `b=c` format to the same text,
and so do a field holding the `int` 4 and the same field holding the `int64` 4:
equal texts do not give equal measurements, tags or fields. -/
theorem C17_not_injective :
    commaMeasurement.Visits [] [] ∧ taggedMeasurement.Visits [("b", .string "c")] []
    ∧ commaMeasurement.String asciiLib [] []
        = taggedMeasurement.String asciiLib [("b", .string "c")] []
    ∧ commaMeasurement.Measurement ≠ taggedMeasurement.Measurement
    ∧ commaMeasurement.Tags ≠ taggedMeasurement.Tags
    ∧ (oneField "f" (.int 4)).String asciiLib [] [("f", .int 4)]
        = (oneField "f" (.int64 4)).String asciiLib [] [("f", .int64 4)]
    ∧ (oneField "f" (.int 4)).Fields ≠ (oneField "f" (.int64 4)).Fields := by
  refine ⟨⟨List.Perm.refl _, List.Perm.refl _⟩, ⟨List.Perm.refl _, List.Perm.refl _⟩, rfl,
    by decide, by decide, rfl, by decide⟩

/-- C17, amended: when two metrics format to the same text they have the same
timestamp and the same text before it (measurement, tag segment and field
clause, concatenated); when neither has a tag or a field they also have the
same measurement, so they are the same metric. -/
theorem C17_timestamp_determined (lib : GoLib) (m1 m2 : LPMetric) (ti1 fi1 ti2 fi2 : GoMap)
    (hv1 : m1.Visits ti1 fi1) (hv2 : m2.Visits ti2 fi2)
    (heq : m1.String lib ti1 fi1 = m2.String lib ti2 fi2) :
    m1.Timestamp = m2.Timestamp
    ∧ m1.Measurement ++ tagSegment lib ti1 ++ fieldClause lib m1.Fields (emittedKeys fi1)
        = m2.Measurement ++ tagSegment lib ti2 ++ fieldClause lib m2.Fields (emittedKeys fi2)
    ∧ (m1.Tags = [] → m1.Fields = [] → m2.Tags = [] → m2.Fields = [] → m1 = m2) := by
  rw [String_layout lib m1 ti1 fi1 hv1, String_layout lib m2 ti2 fi2 hv2] at heq
  have hd := congrArg String.data heq
  simp only [String.data_append] at hd
  rw [List.append_assoc _ [' '], List.append_assoc _ [' '], List.singleton_append,
    List.singleton_append] at hd
  obtain ⟨hpre, hts⟩ := split_at_last ' ' _ _ _ _ hd (fmtD_no_space _) (fmtD_no_space _)
  have hts' : m1.Timestamp = m2.Timestamp := fmtD_injective _ _ (String.ext hts)
  have hpre' : m1.Measurement ++ tagSegment lib ti1 ++ fieldClause lib m1.Fields (emittedKeys fi1)
      = m2.Measurement ++ tagSegment lib ti2 ++ fieldClause lib m2.Fields (emittedKeys fi2) := by
    apply String.ext
    simp only [String.data_append]
    exact hpre
  refine ⟨hts', hpre', fun ht1 hf1 ht2 hf2 => ?_⟩
  have hti1 : ti1 = [] := List.Perm.eq_nil (ht1 ▸ hv1.1)
  have hti2 : ti2 = [] := List.Perm.eq_nil (ht2 ▸ hv2.1)
  have hfi1 : fi1 = [] := List.Perm.eq_nil (hf1 ▸ hv1.2)
  have hfi2 : fi2 = [] := List.Perm.eq_nil (hf2 ▸ hv2.2)
  rw [hti1, hti2, hfi1, hfi2] at hpre'
  have hmeas : m1.Measurement = m2.Measurement := by
    simpa [tagSegment, fieldClause, emittedKeys, sortStrings] using hpre'
  cases m1
  cases m2
  simp_all

theorem C17_timestamp_determined_witness :
    commaMeasurement.Timestamp = taggedMeasurement.Timestamp
    ∧ commaMeasurement.Measurement ++ tagSegment asciiLib []
        ++ fieldClause asciiLib commaMeasurement.Fields (emittedKeys [])
      = taggedMeasurement.Measurement ++ tagSegment asciiLib [("b", .string "c")]
        ++ fieldClause asciiLib taggedMeasurement.Fields (emittedKeys []) :=
  ⟨(C17_timestamp_determined asciiLib commaMeasurement taggedMeasurement [] []
      [("b", .string "c")] [] ⟨List.Perm.refl _, List.Perm.refl _⟩
      ⟨List.Perm.refl _, List.Perm.refl _⟩ rfl).1,
   (C17_timestamp_determined asciiLib commaMeasurement taggedMeasurement [] []
      [("b", .string "c")] [] ⟨List.Perm.refl _, List.Perm.refl _⟩
      ⟨List.Perm.refl _, List.Perm.refl _⟩ rfl).2.1⟩

end Influx2lp
